import Mathlib

/-
Shallow embedding of src/src/visual_odometry/scripts/visual_odometry_publisher.py.

Numeric values are modelled as rationals. Functions supplied by external
libraries (cv2.triangulatePoints, cv2.decomposeEssentialMat, cv2.Rodrigues,
numpy sqrt, numpy sin and cos) are taken as explicit parameters of the
embedded functions; everything else is translated line by line from the
Python source. The nonfinite clamp on line 138 is modelled separately over
an Option-valued float model, since rationals have no NaN or Inf.
-/

/-- A 2D image point, as stored in the kp lists and the q1 and q2 arrays. -/
structure Pt2 where
  px : ℚ
  py : ℚ
deriving DecidableEq

/-- A 3D point, one column of the unhomogenized Q1 and Q2 arrays. -/
structure Vec3 where
  x : ℚ
  y : ℚ
  z : ℚ
deriving DecidableEq

/-- A homogeneous 3D point, one column of hom_Q1 and hom_Q2. -/
structure Vec4 where
  x : ℚ
  y : ℚ
  z : ℚ
  w : ℚ
deriving DecidableEq

/-- A 3 by 3 matrix given by rows; used for K and for rotation blocks. -/
structure Mat3 where
  r0 : Vec3
  r1 : Vec3
  r2 : Vec3
deriving DecidableEq

/-- A 3 by 4 projection matrix given by rows. -/
structure Mat34 where
  r0 : Vec4
  r1 : Vec4
  r2 : Vec4
deriving DecidableEq

/-- A 4 by 4 homogeneous transformation matrix given by rows. -/
structure Mat4 where
  r0 : Vec4
  r1 : Vec4
  r2 : Vec4
  r3 : Vec4
deriving DecidableEq

def dot4 (a b : Vec4) : ℚ :=
  a.x * b.x + a.y * b.y + a.z * b.z + a.w * b.w

/-- Negation of a 3-vector, the -t of the candidate list on line 122. -/
def negV3 (t : Vec3) : Vec3 :=
  ⟨-t.x, -t.y, -t.z⟩

/-- Scalar multiple of a 3-vector, the t * relative_scale of line 137. -/
def smulV3 (s : ℚ) (t : Vec3) : Vec3 :=
  ⟨s * t.x, s * t.y, s * t.z⟩

/-- VisualOdometry._form_transf (lines 38 to 45): T = I4 with the rotation
written into the top left 3 by 3 block and t into the top right column. -/
def _form_transf (R : Mat3) (t : Vec3) : Mat4 :=
  ⟨⟨R.r0.x, R.r0.y, R.r0.z, t.x⟩,
   ⟨R.r1.x, R.r1.y, R.r1.z, t.y⟩,
   ⟨R.r2.x, R.r2.y, R.r2.z, t.z⟩,
   ⟨0, 0, 0, 1⟩⟩

/-- np.concatenate((K, np.zeros((3, 1))), axis=1) of line 95, which also
equals self.P = K @ extrinsic of line 20 since extrinsic is I3 next to a
zero column. -/
def khom (K : Mat3) : Mat34 :=
  ⟨⟨K.r0.x, K.r0.y, K.r0.z, 0⟩,
   ⟨K.r1.x, K.r1.y, K.r1.z, 0⟩,
   ⟨K.r2.x, K.r2.y, K.r2.z, 0⟩⟩

def mat4Col0 (T : Mat4) : Vec4 := ⟨T.r0.x, T.r1.x, T.r2.x, T.r3.x⟩

def mat4Col1 (T : Mat4) : Vec4 := ⟨T.r0.y, T.r1.y, T.r2.y, T.r3.y⟩

def mat4Col2 (T : Mat4) : Vec4 := ⟨T.r0.z, T.r1.z, T.r2.z, T.r3.z⟩

def mat4Col3 (T : Mat4) : Vec4 := ⟨T.r0.w, T.r1.w, T.r2.w, T.r3.w⟩

/-- np.matmul of a 3 by 4 matrix with a 4 by 4 matrix (lines 95 and 141). -/
def matmul34 (A : Mat34) (T : Mat4) : Mat34 :=
  ⟨⟨dot4 A.r0 (mat4Col0 T), dot4 A.r0 (mat4Col1 T), dot4 A.r0 (mat4Col2 T), dot4 A.r0 (mat4Col3 T)⟩,
   ⟨dot4 A.r1 (mat4Col0 T), dot4 A.r1 (mat4Col1 T), dot4 A.r1 (mat4Col2 T), dot4 A.r1 (mat4Col3 T)⟩,
   ⟨dot4 A.r2 (mat4Col0 T), dot4 A.r2 (mat4Col1 T), dot4 A.r2 (mat4Col2 T), dot4 A.r2 (mat4Col3 T)⟩⟩

/-- np.matmul(T, hom_Q1) applied to one homogeneous column (lines 100, 145). -/
def applyMat4 (T : Mat4) (v : Vec4) : Vec4 :=
  ⟨dot4 T.r0 v, dot4 T.r1 v, dot4 T.r2 v, dot4 T.r3 v⟩

/-- Un-homogenization hom_Q[:3, :] / hom_Q[3, :] of lines 103, 104, 148, 149,
applied to one column. -/
def unhom (v : Vec4) : Vec3 :=
  ⟨v.x / v.w, v.y / v.w, v.z / v.w⟩

/-- Squared Euclidean distance between two 3D points; np.linalg.norm applied
to a difference of columns is the external square root of this value. -/
def distSq (p q : Vec3) : ℚ :=
  (p.x - q.x) ^ 2 + (p.y - q.y) ^ 2 + (p.z - q.z) ^ 2

/-- The list np.linalg.norm(Q.T[:-1] - Q.T[1:], axis=-1) of lines 113 and
114: distances between consecutive triangulated points, where sq is the
external numpy square root. -/
def consecDists (sq : ℚ → ℚ) (l : List Vec3) : List ℚ :=
  (l.zip l.tail).map (fun pq => sq (distSq pq.1 pq.2))

/-- np.mean of a list of rationals: sum divided by length. -/
def meanQ (l : List ℚ) : ℚ :=
  l.sum / (l.length : ℚ)

/-- The relative_scale expression of lines 113 and 114: the mean of the
elementwise quotients of consecutive camera 1 distances by consecutive
camera 2 distances. -/
def relativeScaleOf (sq : ℚ → ℚ) (Q1 Q2 : List Vec3) : ℚ :=
  meanQ (List.zipWith (fun a b => a / b) (consecDists sq Q1) (consecDists sq Q2))

/-- sum(Q[2, :] > 0) of lines 109 and 110: how many points have positive z. -/
def countPosZ (l : List Vec3) : ℕ :=
  l.countP (fun p => decide (0 < p.z))

/-- The inner function sum_z_cal_relative_scale of lines 91 to 115. The
parameter tri stands for cv2.triangulatePoints with the point arrays q1 and
q2 already applied, so it maps the two projection matrices to the list of
homogeneous triangulated columns. Returns the cheirality count and the
relative scale of the candidate (R, t). -/
def sum_z_cal_relative_scale (sq : ℚ → ℚ) (tri : Mat34 → Mat34 → List Vec4)
    (K : Mat3) (R : Mat3) (t : Vec3) : ℕ × ℚ :=
  let T := _form_transf R t
  let P := matmul34 (khom K) T
  let hom_Q1 := tri (khom K) P
  let hom_Q2 := hom_Q1.map (applyMat4 T)
  let Q1 := hom_Q1.map unhom
  let Q2 := hom_Q2.map unhom
  (countPosZ Q1 + countPosZ Q2, relativeScaleOf sq Q1 Q2)

/-- The candidate list of line 122: pairs = [[R1, t], [R1, -t], [R2, t], [R2, -t]]. -/
def candidatePairs (R1 R2 : Mat3) (t : Vec3) : List (Mat3 × Vec3) :=
  [(R1, t), (R1, negV3 t), (R2, t), (R2, negV3 t)]

/-- Accumulator loop of np.argmax: keeps the first index holding the largest
value seen so far and replaces it only on a strictly larger value. -/
def argmaxAux : List ℕ → ℕ → ℕ → ℕ → ℕ
  | [], best, _, _ => best
  | v :: vs, best, bestVal, i =>
      if bestVal < v then argmaxAux vs i v (i + 1) else argmaxAux vs best bestVal (i + 1)

/-- np.argmax on a list of naturals (line 133): index of the first maximum. -/
def argmaxList : List ℕ → ℕ
  | [] => 0
  | v :: vs => argmaxAux vs 0 v 1

/-- The per candidate results of the loop on lines 127 to 130. -/
def decompResults (sq : ℚ → ℚ) (tri : Mat34 → Mat34 → List Vec4)
    (K : Mat3) (R1 R2 : Mat3) (t : Vec3) : List (ℕ × ℚ) :=
  (candidatePairs R1 R2 t).map (fun p => sum_z_cal_relative_scale sq tri K p.1 p.2)

/-- The z_sums list built on lines 125 to 129. -/
def decompZSums (sq : ℚ → ℚ) (tri : Mat34 → Mat34 → List Vec4)
    (K : Mat3) (R1 R2 : Mat3) (t : Vec3) : List ℕ :=
  (decompResults sq tri K R1 R2 t).map Prod.fst

/-- The relative_scales list built on lines 126 to 130. -/
def decompScales (sq : ℚ → ℚ) (tri : Mat34 → Mat34 → List Vec4)
    (K : Mat3) (R1 R2 : Mat3) (t : Vec3) : List ℚ :=
  (decompResults sq tri K R1 R2 t).map Prod.snd

/-- VisualOdometry.decomp_essential_mat, lines 90 to 153, after
cv2.decomposeEssentialMat has produced R1, R2 and the squeezed t. Selects
the candidate of the first maximal z sum, scales its translation by the
matching relative scale, re-triangulates with the final projection matrix
passed twice (line 143 passes P for both camera arguments), appends the
re-triangulated points to world_points (line 151) and returns the selected
rotation with the scaled translation together with the new world_points
list. Over the rational model every value is finite, so the nonfinite
clamp of line 138 leaves the vector unchanged; the clamp itself is modelled
below over FloatQ by scale_translation and clamp_nonfinite. -/
def decomp_essential_mat (sq : ℚ → ℚ) (tri : Mat34 → Mat34 → List Vec4)
    (K : Mat3) (R1 R2 : Mat3) (t : Vec3) (world_points : List (List Vec3)) :
    (Mat3 × Vec3) × List (List Vec3) :=
  let pairs := candidatePairs R1 R2 t
  let z_sums := decompZSums sq tri K R1 R2 t
  let relative_scales := decompScales sq tri K R1 R2 t
  let right_pair_idx := argmaxList z_sums
  let right_pair := pairs.getD right_pair_idx (R1, t)
  let relative_scale := relative_scales.getD right_pair_idx 0
  let tScaled := smulV3 relative_scale right_pair.2
  let T := _form_transf right_pair.1 tScaled
  let P := matmul34 (khom K) T
  let hom_Q1 := tri P P
  let Q1 := hom_Q1.map unhom
  ((right_pair.1, tScaled), world_points ++ [Q1])

/-- Candidate number i of the list on line 122, with the (R1, t) candidate
as the out of range default. -/
def cand (R1 R2 : Mat3) (t : Vec3) (i : ℕ) : Mat3 × Vec3 :=
  (candidatePairs R1 R2 t).getD i (R1, t)

/-- Cheirality score of candidate number i: the first component computed by
sum_z_cal_relative_scale, the count of positive z points in the camera 1
frame plus the count in the camera 2 frame. -/
def candScore (sq : ℚ → ℚ) (tri : Mat34 → Mat34 → List Vec4)
    (K : Mat3) (R1 R2 : Mat3) (t : Vec3) (i : ℕ) : ℕ :=
  (sum_z_cal_relative_scale sq tri K (cand R1 R2 t i).1 (cand R1 R2 t i).2).1

/-- Candidate number i with its translation multiplied by its own relative
scale, as on line 137. -/
def candScaled (sq : ℚ → ℚ) (tri : Mat34 → Mat34 → List Vec4)
    (K : Mat3) (R1 R2 : Mat3) (t : Vec3) (i : ℕ) : Mat3 × Vec3 :=
  ((cand R1 R2 t i).1,
   smulV3 (sum_z_cal_relative_scale sq tri K (cand R1 R2 t i).1 (cand R1 R2 t i).2).2
     (cand R1 R2 t i).2)

/-- A float value: some q when finite, none for NaN or Inf. Used to model
lines 137 and 138, where the relative scale can be nonfinite. -/
abbrev FloatQ := Option ℚ

/-- Float multiplication: any nonfinite operand makes the product nonfinite. -/
def mulF (a b : FloatQ) : FloatQ :=
  match a, b with
  | some q, some r => some (q * r)
  | _, _ => none

/-- A translation vector whose components may be nonfinite. -/
structure Vec3F where
  x : FloatQ
  y : FloatQ
  z : FloatQ
deriving DecidableEq

/-- Line 137: t = t * relative_scale, componentwise float multiplication by
the possibly nonfinite scalar. -/
def scale_translation (s : FloatQ) (t : Vec3F) : Vec3F :=
  ⟨mulF s t.x, mulF s t.y, mulF s t.z⟩

/-- One component of line 138: a nonfinite entry becomes 0.00001, a finite
entry is kept. -/
def clampComp (c : FloatQ) : FloatQ :=
  match c with
  | none => some (1 / 100000)
  | some q => some q

/-- Line 138: t[~np.isfinite(t)] = 0.00001, applied to all three components. -/
def clamp_nonfinite (t : Vec3F) : Vec3F :=
  ⟨clampComp t.x, clampComp t.y, clampComp t.z⟩

/-- A FLANN match record: queryIdx, trainIdx and descriptor distance. -/
structure DMatch where
  queryIdx : ℕ
  trainIdx : ℕ
  distance : ℚ
deriving DecidableEq

/-- The ratio test loop of lines 59 to 65. Each element of the knn list is
the list of neighbors returned for one query descriptor. An element of
length two unpacks as m, n and m is kept when m.distance < 0.5 * n.distance;
any element of another length raises ValueError inside the try block that
wraps the WHOLE loop, so the loop stops there and good_matches keeps only
what was accumulated before that element. -/
def good_matches_loop : List (List DMatch) → List DMatch
  | [] => []
  | l :: rest =>
      match l with
      | [m, n] =>
          if m.distance < (1 / 2) * n.distance then m :: good_matches_loop rest
          else good_matches_loop rest
      | _ => []

/-- VisualOdometry.get_matches, lines 48 to 73, after the external calls.
kp1 and kp2 are the keypoint location lists of the two frames and knn is
the list returned by flann.knnMatch. Returns none for the Python (None,
None) branch. -/
def get_matches (kp1 kp2 : List Pt2) (knn : List (List DMatch)) :
    Option (List Pt2 × List Pt2) :=
  if 6 < kp1.length ∧ 6 < kp2.length then
    let good := good_matches_loop knn
    some (good.map (fun m => kp1.getD m.queryIdx ⟨0, 0⟩),
          good.map (fun m => kp2.getD m.trainIdx ⟨0, 0⟩))
  else none

/-- A quaternion as returned by matrix_to_quaternion (line 162). -/
structure Quat where
  qx : ℚ
  qy : ℚ
  qz : ℚ
  qw : ℚ
deriving DecidableEq

/-- The top left 3 by 3 block: the slice matrix[:, 0:3] taken at line 199
followed by the slice matrix[:3, :3] taken at line 157. -/
def rotBlock (T : Mat4) : Mat3 :=
  ⟨⟨T.r0.x, T.r0.y, T.r0.z⟩,
   ⟨T.r1.x, T.r1.y, T.r1.z⟩,
   ⟨T.r2.x, T.r2.y, T.r2.z⟩⟩

/-- matrix_to_quaternion, lines 156 to 162. The parameters sinf and cosf
stand for numpy sin and cos, and rodrigues for cv2.Rodrigues returning the
rotation vector rvec of the given rotation matrix. The formula combines
the half angles of the three rvec components. -/
def matrix_to_quaternion (sinf cosf : ℚ → ℚ) (rodrigues : Mat3 → Vec3)
    (m : Mat3) : Quat :=
  let r := rodrigues m
  ⟨sinf (r.x / 2) * cosf (r.y / 2) * cosf (r.z / 2) -
     cosf (r.x / 2) * sinf (r.y / 2) * sinf (r.z / 2),
   cosf (r.x / 2) * sinf (r.y / 2) * cosf (r.z / 2) +
     sinf (r.x / 2) * cosf (r.y / 2) * sinf (r.z / 2),
   cosf (r.x / 2) * cosf (r.y / 2) * sinf (r.z / 2) -
     sinf (r.x / 2) * sinf (r.y / 2) * cosf (r.z / 2),
   cosf (r.x / 2) * cosf (r.y / 2) * cosf (r.z / 2) +
     sinf (r.x / 2) * sinf (r.y / 2) * sinf (r.z / 2)⟩

/-- The pose record filled on lines 192 to 203: position and orientation. -/
structure OdomRec where
  posx : ℚ
  posy : ℚ
  posz : ℚ
  ori : Quat
deriving DecidableEq

/-- numpy array.all() on an N by 2 float array of points: true when every
coordinate of every point is nonzero (truthy). Used by the gate on line 189. -/
def npAll2 (l : List Pt2) : Bool :=
  l.all (fun p => decide (p.px ≠ 0) && decide (p.py ≠ 0))

/-- The publish part of image_callback, lines 186 to 204, for one cycle in
which process_frames is already true. The argument matched is the result of
vo.get_matches on the two frames; transf is the matrix vo.get_pose would
return for the matched points (get_pose depends on the external
cv2.findEssentialMat, so the resulting transform enters as a parameter);
cur_pose is the module level pose matrix. A record is published only when
matched is not none, both point lists are longer than 20 and the two
array.all() reductions agree (line 189). The position is the translation
column of transf divided by 100 (lines 196 to 198) while the orientation is
matrix_to_quaternion of the rotation block of cur_pose (line 199). The line
that would update cur_pose from transf is commented out in the source (line
191), so the returned cur_pose is always the one passed in. -/
def image_callback (sinf cosf : ℚ → ℚ) (rodrigues : Mat3 → Vec3)
    (matched : Option (List Pt2 × List Pt2)) (transf : Mat4) (cur_pose : Mat4) :
    Option OdomRec × Mat4 :=
  match matched with
  | none => (none, cur_pose)
  | some (q1, q2) =>
      if (20 < q1.length ∧ 20 < q2.length) ∧ npAll2 q1 = npAll2 q2 then
        (some ⟨transf.r0.w / 100, transf.r1.w / 100, transf.r2.w / 100,
               matrix_to_quaternion sinf cosf rodrigues (rotBlock cur_pose)⟩,
         cur_pose)
      else (none, cur_pose)

/-- The 3 by 3 identity matrix. -/
def mat3Id : Mat3 :=
  ⟨⟨1, 0, 0⟩, ⟨0, 1, 0⟩, ⟨0, 0, 1⟩⟩

/-- The 4 by 4 identity matrix, the initial value of cur_pose (line 227). -/
def mat4Id : Mat4 :=
  ⟨⟨1, 0, 0, 0⟩, ⟨0, 1, 0, 0⟩, ⟨0, 0, 1, 0⟩, ⟨0, 0, 0, 1⟩⟩

/-- Rotation by the angle pi about the z axis; its entries are exact. -/
def rotPiZ : Mat3 :=
  ⟨⟨-1, 0, 0⟩, ⟨0, -1, 0⟩, ⟨0, 0, 1⟩⟩

/-- The float64 value of pi, used as the concrete stand in for the angle
cv2.Rodrigues reports for rotPiZ. -/
def piF : ℚ := 3141592653589793 / 1000000000000000

/-- Concrete stand in for cv2.Rodrigues at the two matrices it is applied
to in the theorems below: the identity maps to the zero rotation vector
and rotPiZ to the rotation vector (0, 0, piF). -/
def rodW : Mat3 → Vec3 :=
  fun m => if m = mat3Id then ⟨0, 0, 0⟩ else ⟨0, 0, piF⟩

/-- Concrete stand in for numpy sin at the two arguments used below: 0 maps
to 0 and the half angle piF / 2 to 1, the float64 value of sin there. -/
def sinfW : ℚ → ℚ :=
  fun q => if q = 0 then 0 else 1

/-- Concrete stand in for numpy cos at the two arguments used below: 0 maps
to 1 and the half angle piF / 2 to the float64 value of cos there. -/
def cosfW : ℚ → ℚ :=
  fun q => if q = 0 then 1 else 6123233995736766 / 10 ^ 32

/-- Concrete stand in for numpy sqrt at the squared distances appearing in
the concrete point lists below: 1 maps to 1 and 4 to 2. -/
def sqW : ℚ → ℚ :=
  fun q => if q = 1 then 1 else if q = 4 then 2 else 0

/-- Concrete stand in for cv2.triangulatePoints: two homogeneous points on
the positive z axis, independent of the projection matrices. -/
def triW : Mat34 → Mat34 → List Vec4 :=
  fun _ _ => [⟨0, 0, 1, 1⟩, ⟨0, 0, 2, 1⟩]

/-- Concrete translation direction used in the theorems below. -/
def tW : Vec3 := ⟨0, 0, 1⟩

/-- The transform built from rotPiZ and a zero translation. -/
def transfPi : Mat4 := _form_transf rotPiZ ⟨0, 0, 0⟩

/-- Twenty one points all of whose coordinates are nonzero. -/
def ptsOnes : List Pt2 := List.replicate 21 ⟨1, 1⟩

/-- Twenty one points of which the first has a zero coordinate. -/
def ptsZeroFirst : List Pt2 := ⟨0, 1⟩ :: List.replicate 20 ⟨1, 1⟩

/-- Ten points, below the correspondence threshold. -/
def ptsTen : List Pt2 := List.replicate 10 ⟨1, 1⟩

/-- Match with query and train index 0 at distance 1. -/
def mA : DMatch := ⟨0, 0, 1⟩

/-- Second neighbor for mA at distance 3, so mA passes the ratio test. -/
def nA : DMatch := ⟨0, 0, 3⟩

/-- Match with query and train index 2 at distance 1. -/
def mC : DMatch := ⟨2, 2, 1⟩

/-- Second neighbor for mC at distance 3, so mC passes the ratio test. -/
def nC : DMatch := ⟨2, 2, 3⟩

/-- A knn result in which the second query descriptor got one neighbor
only: that element raises ValueError when unpacked as m, n. -/
def knnShort : List (List DMatch) :=
  [[mA, nA], [⟨1, 1, 1⟩], [mC, nC]]

/-- The first camera triangulated points of the concrete scale example. -/
def q1Scale : List Vec3 := [⟨0, 0, 0⟩, ⟨0, 0, 1⟩]

/-- The second camera triangulated points of the concrete scale example:
consecutive distances are twice those of q1Scale. -/
def q2Scale : List Vec3 := [⟨0, 0, 0⟩, ⟨0, 0, 2⟩]

/-- Helper: np.argmax on a four element list lands on the first maximum:
index 0 when s0 is already maximal, otherwise the first entry strictly
larger than everything before it and at least everything after it. -/
theorem argmax4_cases (s0 s1 s2 s3 : ℕ) :
    (argmaxList [s0, s1, s2, s3] = 0 ∧ s1 ≤ s0 ∧ s2 ≤ s0 ∧ s3 ≤ s0) ∨
    (argmaxList [s0, s1, s2, s3] = 1 ∧ s0 < s1 ∧ s2 ≤ s1 ∧ s3 ≤ s1) ∨
    (argmaxList [s0, s1, s2, s3] = 2 ∧ s0 < s2 ∧ s1 < s2 ∧ s3 ≤ s2) ∨
    (argmaxList [s0, s1, s2, s3] = 3 ∧ s0 < s3 ∧ s1 < s3 ∧ s2 < s3) := by
  simp only [argmaxList, argmaxAux]
  split_ifs <;> omega

/-- Helper: once the argmax index is known, the pair part of
decomp_essential_mat is the candidate of that index with its translation
scaled by the relative scale of the same index. -/
theorem decomp_fst_eq (sq : ℚ → ℚ) (tri : Mat34 → Mat34 → List Vec4)
    (K : Mat3) (R1 R2 : Mat3) (t : Vec3) (wp : List (List Vec3)) (i : ℕ)
    (h4 : i < 4) (h : argmaxList (decompZSums sq tri K R1 R2 t) = i) :
    (decomp_essential_mat sq tri K R1 R2 t wp).1 = candScaled sq tri K R1 R2 t i := by
  interval_cases i <;>
    simp [decomp_essential_mat, h, candScaled, cand, candidatePairs,
      decompScales, decompResults]


/-- C1: decomp_essential_mat returns the candidate among the four whose
cheirality score (positive z count in the camera 1 frame plus positive z
count after re-expression by the candidate transform) is highest, with its
translation scaled by the relative scale of that candidate; ties go to the
first maximum in the order (R1, t), (R1, -t), (R2, t), (R2, -t). -/
theorem decomp_selects_first_max_cheirality (sq : ℚ → ℚ)
    (tri : Mat34 → Mat34 → List Vec4) (K : Mat3) (R1 R2 : Mat3) (t : Vec3)
    (wp : List (List Vec3)) :
    ∃ i, i < 4 ∧
      (∀ j, j < 4 → candScore sq tri K R1 R2 t j ≤ candScore sq tri K R1 R2 t i) ∧
      (∀ j, j < i → candScore sq tri K R1 R2 t j < candScore sq tri K R1 R2 t i) ∧
      (decomp_essential_mat sq tri K R1 R2 t wp).1 = candScaled sq tri K R1 R2 t i := by
  have hz : decompZSums sq tri K R1 R2 t =
      [candScore sq tri K R1 R2 t 0, candScore sq tri K R1 R2 t 1,
       candScore sq tri K R1 R2 t 2, candScore sq tri K R1 R2 t 3] := rfl
  rcases argmax4_cases (candScore sq tri K R1 R2 t 0) (candScore sq tri K R1 R2 t 1)
      (candScore sq tri K R1 R2 t 2) (candScore sq tri K R1 R2 t 3) with
    ⟨hi, ha, hb, hc⟩ | ⟨hi, ha, hb, hc⟩ | ⟨hi, ha, hb, hc⟩ | ⟨hi, ha, hb, hc⟩
  · refine ⟨0, by norm_num, ?_, ?_, ?_⟩
    · intro j hj; interval_cases j
      exacts [le_rfl, ha, hb, hc]
    · intro j hj; omega
    · exact decomp_fst_eq sq tri K R1 R2 t wp 0 (by norm_num) (by rw [hz]; exact hi)
  · refine ⟨1, by norm_num, ?_, ?_, ?_⟩
    · intro j hj; interval_cases j
      exacts [le_of_lt ha, le_rfl, hb, hc]
    · intro j hj; interval_cases j
      exacts [ha]
    · exact decomp_fst_eq sq tri K R1 R2 t wp 1 (by norm_num) (by rw [hz]; exact hi)
  · refine ⟨2, by norm_num, ?_, ?_, ?_⟩
    · intro j hj; interval_cases j
      exacts [le_of_lt ha, le_of_lt hb, le_rfl, hc]
    · intro j hj; interval_cases j
      exacts [ha, hb]
    · exact decomp_fst_eq sq tri K R1 R2 t wp 2 (by norm_num) (by rw [hz]; exact hi)
  · refine ⟨3, by norm_num, ?_, ?_, ?_⟩
    · intro j hj; interval_cases j
      exacts [le_of_lt ha, le_of_lt hb, le_of_lt hc, le_rfl]
    · intro j hj; interval_cases j
      exacts [ha, hb, hc]
    · exact decomp_fst_eq sq tri K R1 R2 t wp 3 (by norm_num) (by rw [hz]; exact hi)

/-- C2: multiplying the winning translation by its relative scale over the
float model and then applying the nonfinite clamp leaves every component
finite, nonfinite components become exactly 1 / 100000 (the literal 0.00001
of line 138) and finite components are kept unchanged. -/
theorem scale_clamp_translation_finite (s : FloatQ) (t : Vec3F) :
    ((clamp_nonfinite (scale_translation s t)).x.isSome = true ∧
     (clamp_nonfinite (scale_translation s t)).y.isSome = true ∧
     (clamp_nonfinite (scale_translation s t)).z.isSome = true) ∧
    ((scale_translation s t).x = none →
      (clamp_nonfinite (scale_translation s t)).x = some (1 / 100000)) ∧
    ((scale_translation s t).y = none →
      (clamp_nonfinite (scale_translation s t)).y = some (1 / 100000)) ∧
    ((scale_translation s t).z = none →
      (clamp_nonfinite (scale_translation s t)).z = some (1 / 100000)) ∧
    (∀ q : ℚ, (scale_translation s t).x = some q →
      (clamp_nonfinite (scale_translation s t)).x = some q) ∧
    (∀ q : ℚ, (scale_translation s t).y = some q →
      (clamp_nonfinite (scale_translation s t)).y = some q) ∧
    (∀ q : ℚ, (scale_translation s t).z = some q →
      (clamp_nonfinite (scale_translation s t)).z = some q) := by
  rcases t with ⟨x, y, z⟩
  rcases s with _ | s <;> rcases x with _ | x <;> rcases y with _ | y <;>
    rcases z with _ | z <;>
    simp [scale_translation, clamp_nonfinite, clampComp, mulF]

/-- C3 counterexample: one call of decomp_essential_mat on an empty
world_points list leaves a nonempty world_points list behind: the
triangulated points of the cycle are retained, the state is neither
unchanged nor cleared. -/
theorem world_points_retained_counterexample :
    (decomp_essential_mat sqW triW mat3Id mat3Id mat3Id tW []).2 =
      [[⟨0, 0, 1⟩, ⟨0, 0, 2⟩]] ∧
    (decomp_essential_mat sqW triW mat3Id mat3Id mat3Id tW []).2 ≠ [] := by
  have hA : (decomp_essential_mat sqW triW mat3Id mat3Id mat3Id tW []).2 =
      [[⟨0, 0, 1⟩, ⟨0, 0, 2⟩]] := by
    norm_num [decomp_essential_mat, decompZSums, decompScales, decompResults,
      candidatePairs, sum_z_cal_relative_scale, countPosZ, relativeScaleOf,
      consecDists, meanQ, distSq, unhom, applyMat4, dot4, _form_transf, khom,
      matmul34, mat4Col0, mat4Col1, mat4Col2, mat4Col3, triW, sqW, tW, mat3Id,
      negV3, smulV3, argmaxList, argmaxAux, decide_eq_true_eq]
  exact ⟨hA, by rw [hA]; simp⟩

/-- C3 amended: every call of decomp_essential_mat appends exactly one
triangulated point set to world_points, so triangulated points accumulate
across frame pair cycles instead of being discarded. -/
theorem decomp_appends_world_points (sq : ℚ → ℚ) (tri : Mat34 → Mat34 → List Vec4)
    (K : Mat3) (R1 R2 : Mat3) (t : Vec3) (wp : List (List Vec3)) :
    ∃ Q, (decomp_essential_mat sq tri K R1 R2 t wp).2 = wp ++ [Q] :=
  ⟨_, rfl⟩

/-- C4 counterexample: in knnShort the second knn element has one neighbor
only, so the ValueError caught OUTSIDE the loop stops the whole loop: the
later match mC passes the distance ratio test yet is absent from the
returned good matches, which contain only mA. -/
theorem ratio_loop_stops_counterexample :
    mC.distance < (1 / 2) * nC.distance ∧
    good_matches_loop knnShort = [mA] ∧
    mC ∉ good_matches_loop knnShort := by
  have h1 : mC.distance < (1 / 2) * nC.distance := by norm_num [mC, nC]
  have h2 : good_matches_loop knnShort = [mA] := by
    norm_num [good_matches_loop, knnShort, mA, nA, mC, nC]
  refine ⟨h1, h2, ?_⟩
  rw [h2]
  simp [mA, mC]

/-- Helper: unfolding of the ratio test loop on a two neighbor head. -/
theorem good_matches_loop_cons2 (m n : DMatch) (rest : List (List DMatch)) :
    good_matches_loop ([m, n] :: rest) =
      if m.distance < (1 / 2) * n.distance then m :: good_matches_loop rest
      else good_matches_loop rest := rfl

/-- C4 amended: when one knn element does not have exactly two neighbors,
the ratio test loop stops there: the matches kept are exactly those
elements before it that pass the ratio test, and every element from the
offending one onward is dropped. -/
theorem good_matches_loop_drops_tail (pre : List (DMatch × DMatch))
    (bad : List DMatch) (post : List (List DMatch)) (h : bad.length ≠ 2) :
    good_matches_loop (pre.map (fun p => [p.1, p.2]) ++ bad :: post) =
      (pre.filter (fun p => decide (p.1.distance < (1 / 2) * p.2.distance))).map
        Prod.fst := by
  induction pre with
  | nil =>
      match bad, h with
      | [], _ => rfl
      | [x], _ => rfl
      | [x, y], h => exact absurd rfl h
      | x :: y :: z :: r, _ => rfl
  | cons hd tl ih =>
      rw [List.map_cons, List.cons_append, good_matches_loop_cons2, ih,
        List.filter_cons]
      by_cases hp : hd.1.distance < (1 / 2) * hd.2.distance
      · rw [if_pos hp, if_pos (decide_eq_true hp), List.map_cons]
      · rw [if_neg hp, if_neg (by simpa using hp)]

/-- C4 witness: the amended statement applied at a concrete input whose
second knn element is empty. -/
theorem good_matches_loop_drops_tail_witness :
    good_matches_loop ([(mA, nA)].map (fun p => [p.1, p.2]) ++ [] :: []) =
      ([(mA, nA)].filter
        (fun p => decide (p.1.distance < (1 / 2) * p.2.distance))).map Prod.fst :=
  good_matches_loop_drops_tail [(mA, nA)] [] [] (by simp)

/-- C5: the candidate set built by decomp_essential_mat is exactly the four
combinations (R1, t), (R1, -t), (R2, t), (R2, -t), and the z sums list it
selects from evaluates the cheirality score of all four candidates. -/
theorem candidate_pairs_complete (sq : ℚ → ℚ) (tri : Mat34 → Mat34 → List Vec4)
    (K : Mat3) (R1 R2 : Mat3) (t : Vec3) :
    candidatePairs R1 R2 t = [(R1, t), (R1, negV3 t), (R2, t), (R2, negV3 t)] ∧
    (candidatePairs R1 R2 t).length = 4 ∧
    decompZSums sq tri K R1 R2 t =
      [(sum_z_cal_relative_scale sq tri K R1 t).1,
       (sum_z_cal_relative_scale sq tri K R1 (negV3 t)).1,
       (sum_z_cal_relative_scale sq tri K R2 t).1,
       (sum_z_cal_relative_scale sq tri K R2 (negV3 t)).1] ∧
    (decompZSums sq tri K R1 R2 t).length = 4 :=
  ⟨rfl, rfl, rfl, rfl⟩

/-- C7: when get_matches returned none, or either point list has length
below 20, image_callback publishes nothing for the cycle. -/
theorem image_callback_skip (sinf cosf : ℚ → ℚ) (rod : Mat3 → Vec3)
    (matched : Option (List Pt2 × List Pt2)) (transf cur_pose : Mat4)
    (h : matched = none ∨
      ∃ q1 q2, matched = some (q1, q2) ∧ (q1.length < 20 ∨ q2.length < 20)) :
    (image_callback sinf cosf rod matched transf cur_pose).1 = none := by
  rcases h with h | ⟨q1, q2, rfl, hlen⟩
  · subst h; rfl
  · have hc : ¬((20 < q1.length ∧ 20 < q2.length) ∧ npAll2 q1 = npAll2 q2) := by
      rintro ⟨⟨h1, h2⟩, -⟩; omega
    simp [image_callback, hc]

/-- C7 witness: the skip statement applied to two concrete ten point lists. -/
theorem image_callback_skip_witness :
    (image_callback sinfW cosfW rodW (some (ptsTen, ptsTen)) mat4Id mat4Id).1 =
      none :=
  image_callback_skip sinfW cosfW rodW (some (ptsTen, ptsTen)) mat4Id mat4Id
    (Or.inr ⟨ptsTen, ptsTen, rfl, Or.inl (by simp [ptsTen])⟩)

/-- C8: get_matches returns none exactly when one of the frames yielded six
or fewer keypoints; with more than six keypoints on both sides it returns
two point sequences. -/
theorem get_matches_keypoint_gate (kp1 kp2 : List Pt2)
    (knn : List (List DMatch)) :
    ((kp1.length ≤ 6 ∨ kp2.length ≤ 6) → get_matches kp1 kp2 knn = none) ∧
    (6 < kp1.length → 6 < kp2.length →
      ∃ a b, get_matches kp1 kp2 knn = some (a, b)) := by
  constructor
  · intro h
    have hc : ¬(6 < kp1.length ∧ 6 < kp2.length) := by
      rcases h with h | h <;> omega
    simp [get_matches, hc]
  · intro h1 h2
    have hc : 6 < kp1.length ∧ 6 < kp2.length := ⟨h1, h2⟩
    simp only [get_matches, if_pos hc]
    exact ⟨_, _, rfl⟩

/-- Helper: dividing each list entry by its k scaled copy yields the
constant list of 1 / k, provided the entries are nonzero. -/
theorem zipWith_div_scaled (k : ℚ) (l : List ℚ) (h0 : ∀ d ∈ l, d ≠ 0) :
    List.zipWith (fun a b => a / b) l (l.map (fun d => k * d)) =
      l.map (fun _ => 1 / k) := by
  induction l with
  | nil => rfl
  | cons a as ih =>
      have ha : a ≠ 0 := h0 a (by simp)
      simp only [List.map_cons, List.zipWith_cons_cons]
      rw [ih (fun d hd => h0 d (by simp [hd]))]
      congr 1
      rw [mul_comm, ← div_div, div_self ha]

/-- C9 counterexample: concrete triangulated points whose camera 2
consecutive distances are exactly twice the camera 1 ones; the computed
relative scale is 1 / 2, not the factor 2 the claim states. -/
theorem relative_scale_counterexample :
    consecDists sqW q2Scale = (consecDists sqW q1Scale).map (fun d => 2 * d) ∧
    relativeScaleOf sqW q1Scale q2Scale = 1 / 2 ∧
    ¬ relativeScaleOf sqW q1Scale q2Scale = 2 := by
  refine ⟨?_, ?_, ?_⟩
  · norm_num [consecDists, q1Scale, q2Scale, distSq, sqW]
  · norm_num [relativeScaleOf, consecDists, q1Scale, q2Scale, distSq, sqW, meanQ]
  · norm_num [relativeScaleOf, consecDists, q1Scale, q2Scale, distSq, sqW, meanQ]

/-- C9 amended: the relative scale is the mean of the elementwise ratios of
camera 1 consecutive distances over camera 2 consecutive distances, and
when the camera 2 distances are k times the camera 1 distances (all nonzero)
the computed scale is 1 / k, the reciprocal of the factor. -/
theorem relative_scale_inverse_factor (sq : ℚ → ℚ) (Q1 Q2 : List Vec3) (k : ℚ)
    (hd : consecDists sq Q2 = (consecDists sq Q1).map (fun d => k * d))
    (h0 : ∀ d ∈ consecDists sq Q1, d ≠ 0)
    (hk : k ≠ 0) (hne : consecDists sq Q1 ≠ []) :
    relativeScaleOf sq Q1 Q2 =
      meanQ (List.zipWith (fun a b => a / b)
        (consecDists sq Q1) (consecDists sq Q2)) ∧
    relativeScaleOf sq Q1 Q2 = 1 / k := by
  refine ⟨rfl, ?_⟩
  rw [relativeScaleOf, hd, zipWith_div_scaled k _ h0]
  rw [meanQ, List.map_const', List.sum_replicate, List.length_replicate,
    nsmul_eq_mul]
  have hn : ((consecDists sq Q1).length : ℚ) ≠ 0 :=
    Nat.cast_ne_zero.mpr (List.length_pos.mpr hne).ne'
  rw [mul_comm, mul_div_assoc, div_self hn, mul_one]

/-- C9 witness: the amended statement applied to the concrete lists q1Scale
and q2Scale with factor 2. -/
theorem relative_scale_inverse_factor_witness :
    relativeScaleOf sqW q1Scale q2Scale =
      meanQ (List.zipWith (fun a b => a / b)
        (consecDists sqW q1Scale) (consecDists sqW q2Scale)) ∧
    relativeScaleOf sqW q1Scale q2Scale = 1 / 2 :=
  relative_scale_inverse_factor sqW q1Scale q2Scale 2
    (by norm_num [consecDists, q1Scale, q2Scale, distSq, sqW])
    (by norm_num [consecDists, q1Scale, q2Scale, distSq, sqW])
    (by norm_num)
    (by norm_num [consecDists, q1Scale, q2Scale, distSq, sqW])

/-- C10: a pose record is published only when both point lists are longer
than 20 and the two numpy all reductions agree; the gate can fail on lists
longer than 20, as the concrete pair ptsOnes and ptsZeroFirst shows. -/
theorem image_callback_truthy_gate :
    (∀ (sinf cosf : ℚ → ℚ) (rod : Mat3 → Vec3) (q1 q2 : List Pt2)
        (transf cur_pose : Mat4) (r : OdomRec) (cp2 : Mat4),
        image_callback sinf cosf rod (some (q1, q2)) transf cur_pose =
          (some r, cp2) →
        20 < q1.length ∧ 20 < q2.length ∧ npAll2 q1 = npAll2 q2) ∧
    ((image_callback sinfW cosfW rodW (some (ptsOnes, ptsZeroFirst)) mat4Id
        mat4Id).1 = none ∧
      20 < ptsOnes.length ∧ 20 < ptsZeroFirst.length) := by
  constructor
  · intro sinf cosf rod q1 q2 transf cur_pose r cp2 h
    by_cases hc : (20 < q1.length ∧ 20 < q2.length) ∧ npAll2 q1 = npAll2 q2
    · exact ⟨hc.1.1, hc.1.2, hc.2⟩
    · simp [image_callback, hc] at h
  · refine ⟨?_, by simp [ptsOnes], by simp [ptsZeroFirst]⟩
    have hgate : ¬((20 < ptsOnes.length ∧ 20 < ptsZeroFirst.length) ∧
        npAll2 ptsOnes = npAll2 ptsZeroFirst) := by
      rintro ⟨-, hall⟩
      rw [show npAll2 ptsOnes = true by norm_num [npAll2, ptsOnes],
        show npAll2 ptsZeroFirst = false by norm_num [npAll2, ptsZeroFirst]] at hall
      exact absurd hall (by simp)
    simp [image_callback, hgate]

/-- C6 counterexample: a cycle whose resolved transform carries the rotation
rotPiZ publishes the quaternion of the identity cur_pose, which differs from
the quaternion derived from the rotation block of the cycle transform. -/
theorem quaternion_ignores_transf_counterexample :
    (image_callback sinfW cosfW rodW (some (ptsOnes, ptsOnes)) transfPi
        mat4Id).1 = some ⟨0, 0, 0, ⟨0, 0, 0, 1⟩⟩ ∧
    (⟨0, 0, 0, 1⟩ : Quat) ≠
      matrix_to_quaternion sinfW cosfW rodW (rotBlock transfPi) := by
  constructor
  · have hgate : (20 < ptsOnes.length ∧ 20 < ptsOnes.length) ∧
        npAll2 ptsOnes = npAll2 ptsOnes := by
      exact ⟨⟨by simp [ptsOnes], by simp [ptsOnes]⟩, rfl⟩
    rw [show image_callback sinfW cosfW rodW (some (ptsOnes, ptsOnes)) transfPi
          mat4Id =
        (some ⟨transfPi.r0.w / 100, transfPi.r1.w / 100, transfPi.r2.w / 100,
           matrix_to_quaternion sinfW cosfW rodW (rotBlock mat4Id)⟩, mat4Id) from
        by rw [image_callback, if_pos hgate]]
    norm_num [matrix_to_quaternion, rodW, rotBlock, mat4Id, mat3Id, sinfW,
      cosfW, transfPi, _form_transf, rotPiZ]
  · norm_num [matrix_to_quaternion, rodW, rotBlock, mat4Id, mat3Id, sinfW,
      cosfW, transfPi, _form_transf, rotPiZ, piF, Quat.mk.injEq]

/-- C6 amended: every pose record image_callback publishes carries the
quaternion computed from the rotation block of the module level cur_pose
matrix, not from the cycle transform; and cur_pose is never updated (the
accumulation line is commented out in the source), so it keeps its initial
identity value across cycles. -/
theorem image_callback_quat_uses_cur_pose (sinf cosf : ℚ → ℚ)
    (rod : Mat3 → Vec3) (matched : Option (List Pt2 × List Pt2))
    (transf cur_pose : Mat4) (r : OdomRec) (cp2 : Mat4)
    (h : image_callback sinf cosf rod matched transf cur_pose = (some r, cp2)) :
    r.ori = matrix_to_quaternion sinf cosf rod (rotBlock cur_pose) ∧
    cp2 = cur_pose := by
  match matched with
  | none => simp [image_callback] at h
  | some (q1, q2) =>
    by_cases hc : (20 < q1.length ∧ 20 < q2.length) ∧ npAll2 q1 = npAll2 q2
    · rw [image_callback, if_pos hc] at h
      obtain ⟨h1, h2⟩ := Prod.mk.injEq .. ▸ h
      refine ⟨?_, h2.symm⟩
      rw [← Option.some_inj.mp h1]
    · rw [image_callback, if_neg hc] at h
      exact absurd (congrArg Prod.fst h) (by simp)

/-- C6 witness: the amended statement applied to a concrete publishing
cycle with identity cur_pose. -/
theorem image_callback_quat_uses_cur_pose_witness :
    (OdomRec.ori ⟨0, 0, 0, ⟨0, 0, 0, 1⟩⟩) =
      matrix_to_quaternion sinfW cosfW rodW (rotBlock mat4Id) ∧
    mat4Id = mat4Id :=
  image_callback_quat_uses_cur_pose sinfW cosfW rodW (some (ptsOnes, ptsOnes))
    transfPi mat4Id ⟨0, 0, 0, ⟨0, 0, 0, 1⟩⟩ mat4Id
    (by
      have hgate : (20 < ptsOnes.length ∧ 20 < ptsOnes.length) ∧
          npAll2 ptsOnes = npAll2 ptsOnes :=
        ⟨⟨by simp [ptsOnes], by simp [ptsOnes]⟩, rfl⟩
      rw [image_callback, if_pos hgate]
      norm_num [matrix_to_quaternion, rodW, rotBlock, mat4Id, mat3Id, sinfW,
        cosfW, transfPi, _form_transf, rotPiZ])
